import Mathlib

/-!
Verification of the auto_insert_to_form repository (a Selenium-driven
form-filling tool for the T24 banking web application).

The Python sources are shallowly embedded: pure text processing
(DataManager, ExtractorValidator list logic) is translated directly;
browser interactions (Selenium calls) are modelled as oracles supplied in
environment records, with the Python control flow transcribed faithfully,
including Python truthiness where it matters (a non-empty tuple is truthy).
File access is modelled as an Option (List String): none models
FileNotFoundError, some lines models the file content split into lines.
-/

namespace AutoForm

/-! ## Python string primitives

Defined over the character list of a string so that they evaluate inside the
kernel on concrete inputs. -/

/-- The whitespace characters stripped by Python str.strip(). -/
def isPySpace (c : Char) : Bool :=
  c == ' ' || c == '\t' || c == '\n' || c == '\r' || c == '\x0b' || c == '\x0c'

/-- Python str.strip(): removes leading and trailing whitespace. -/
def pyStrip (s : String) : String :=
  String.mk (((s.data.dropWhile isPySpace).reverse.dropWhile isPySpace).reverse)

/-- Python str.startswith. -/
def strStartsWith (s pre : String) : Bool := pre.data.isPrefixOf s.data

/-- Python str.endswith. -/
def strEndsWith (s suf : String) : Bool := suf.data.isSuffixOf s.data

/-- Python str.upper for the ASCII values compared in the sources. -/
def pyUpper (s : String) : String := String.mk (s.data.map Char.toUpper)

/-! ## Shared line-scanning helpers (core/data_manager.py) -/

/-- A stripped line is a section header when it starts with a left bracket and
ends with a right bracket, as tested in data_manager.py. -/
def isHeader (s : String) : Bool := strStartsWith s "[" && strEndsWith s "]"

/-- Python line[1:-1].strip(): the header text between the brackets, stripped. -/
def headerName (s : String) : String := pyStrip ((s.drop 1).dropRight 1)

/-- Lines skipped by DataManager.load_batch_tables: blank lines and lines
starting with a semicolon. -/
def batchSkip (s : String) : Bool := s == "" || strStartsWith s ";"

/-- Lines skipped by load_extractor_data / load_dfe_map_data: blank lines and
lines starting with a semicolon or a hash. -/
def extSkip (s : String) : Bool :=
  s == "" || strStartsWith s ";" || strStartsWith s "#"

/-! ## DataManager.load_batch_tables (core/data_manager.py lines 7-55) -/

/-- The save step of load_batch_tables: the pending (command, tables) section is
emitted only when the command is truthy (non-empty) and the table list is
non-empty, mirroring the Python test: if current_command and current_tables. -/
def lbtEmit (cur : Option String) (ts : List String) : List (String × List String) :=
  match cur with
  | some c => if !(c == "") && !ts.isEmpty then [(c, ts)] else []
  | none => []

/-- The line loop of load_batch_tables with state (current_command,
current_tables). Table lines are the stripped lines; lines before the first
header are ignored (with a logged warning in the source). -/
def loadBatchTablesGo : List String → Option String → List String → List (String × List String)
  | [], cur, ts => lbtEmit cur ts
  | l :: rest, cur, ts =>
    let s := pyStrip l
    if batchSkip s then loadBatchTablesGo rest cur ts
    else if isHeader s then lbtEmit cur ts ++ loadBatchTablesGo rest (some (headerName s)) []
    else
      match cur with
      | some c => loadBatchTablesGo rest (some c) (ts ++ [s])
      | none => loadBatchTablesGo rest none ts

/-- DataManager.load_batch_tables: none models FileNotFoundError (return []). -/
def DataManager.load_batch_tables (fileLines : Option (List String)) :
    List (String × List String) :=
  match fileLines with
  | none => []
  | some lines => loadBatchTablesGo lines none []

/-! Spec-side reading of load_batch_tables for claim C5, written from the
claim's words: a stripped line of the form [X] starts a section with command X
stripped; subsequent non-empty stripped lines not starting with a semicolon
become its tables; lines before the first header are ignored; sections with an
empty table list are omitted; a missing file yields the empty list. -/

/-- Stripped lines with blank and comment lines removed. -/
def cleanBatchLines (lines : List String) : List String :=
  (lines.map pyStrip).filter (fun s => !(batchSkip s))

/-- Splits cleaned lines into sections: each header opens a section whose tables
are the following non-header lines; non-header lines before the first header
are dropped. -/
def specSections : List String → List (String × List String)
  | [] => []
  | l :: rest =>
    if isHeader l then
      (headerName l, rest.takeWhile (fun s => !(isHeader s))) ::
        specSections (rest.dropWhile (fun s => !(isHeader s)))
    else
      specSections rest
termination_by ls => ls.length
decreasing_by
  · exact Nat.lt_succ_of_le (List.Sublist.length_le (List.dropWhile_sublist _))
  · exact Nat.lt_succ_of_le (Nat.le_refl _)

/-- The sections claim C5 keeps: those with a non-empty table list. -/
def keepClaimed (p : String × List String) : Bool := !p.2.isEmpty

/-- The sections the code keeps: non-empty table list and non-empty command. -/
def keepAmended (p : String × List String) : Bool := !(p.1 == "") && !p.2.isEmpty

/-- load_batch_tables as claim C5 states it: sections in file order, omitting
only the sections whose table list is empty. -/
def load_batch_tables_spec_claimed (fileLines : Option (List String)) :
    List (String × List String) :=
  match fileLines with
  | none => []
  | some lines => (specSections (cleanBatchLines lines)).filter keepClaimed

/-- The amended reading: a section is also omitted when its command is empty
after stripping (the code requires a truthy command at save time). -/
def load_batch_tables_spec_amended (fileLines : Option (List String)) :
    List (String × List String) :=
  match fileLines with
  | none => []
  | some lines => (specSections (cleanBatchLines lines)).filter keepAmended

/-- The loop of load_batch_tables restated over already-cleaned lines (no
skipped lines left); used to relate the code to the section splitter. -/
def loadBatchTablesClean : List String → Option String → List String → List (String × List String)
  | [], cur, ts => lbtEmit cur ts
  | l :: rest, cur, ts =>
    if isHeader l then lbtEmit cur ts ++ loadBatchTablesClean rest (some (headerName l)) []
    else
      match cur with
      | some c => loadBatchTablesClean rest (some c) (ts ++ [l])
      | none => loadBatchTablesClean rest none ts

/-! ## DataManager.load_extractor_data (lines 57-87) and
DataManager.load_dfe_map_data (lines 108-138) -/

/-- Keys of an association-list model of a Python dict (insertion order). -/
def keysOf {α : Type} (d : List (String × α)) : List String := d.map Prod.fst

/-- Python extractors_dict[current_table].append(line): appends to the list
stored under the (unique) key. -/
def dictAppend (d : List (String × List String)) (k : String) (v : String) :
    List (String × List String) :=
  d.map (fun p => if p.1 = k then (p.1, p.2 ++ [v]) else p)

/-- Loop state of the extractor loaders: (ordered_tables, extractors_dict,
current_table). current_table is None before the first header. -/
structure ExtState where
  tables : List String
  dict : List (String × List String)
  cur : Option String
deriving DecidableEq

/-- One line of the load_extractor_data loop. A header line sets current_table
to the stripped inner name and registers it (table list and dict entry) only
when the name is truthy and not already a key; a data line is appended to the
current table's list when current_table is truthy. -/
def extStep (st : ExtState) (l : String) : ExtState :=
  let s := pyStrip l
  if extSkip s then st
  else if isHeader s then
    let t := headerName s
    if t ≠ "" ∧ t ∉ keysOf st.dict then
      { tables := st.tables ++ [t], dict := st.dict ++ [(t, [])], cur := some t }
    else { st with cur := some t }
  else
    match st.cur with
    | some t => if t ≠ "" then { st with dict := dictAppend st.dict t s } else st
    | none => st

/-- DataManager.load_extractor_data; none models FileNotFoundError. -/
def DataManager.load_extractor_data (fileLines : Option (List String)) :
    List String × List (String × List String) :=
  match fileLines with
  | none => ([], [])
  | some lines =>
    let st := lines.foldl extStep ⟨[], [], none⟩
    (st.tables, st.dict)

/-- One line of the load_dfe_map_data loop: the source of load_dfe_map_data is
line-for-line identical to load_extractor_data, so its step is transcribed
identically. -/
def dfeStep (st : ExtState) (l : String) : ExtState :=
  let s := pyStrip l
  if extSkip s then st
  else if isHeader s then
    let t := headerName s
    if t ≠ "" ∧ t ∉ keysOf st.dict then
      { tables := st.tables ++ [t], dict := st.dict ++ [(t, [])], cur := some t }
    else { st with cur := some t }
  else
    match st.cur with
    | some t => if t ≠ "" then { st with dict := dictAppend st.dict t s } else st
    | none => st

/-- DataManager.load_dfe_map_data; none models FileNotFoundError. -/
def DataManager.load_dfe_map_data (fileLines : Option (List String)) :
    List String × List (String × List String) :=
  match fileLines with
  | none => ([], [])
  | some lines =>
    let st := lines.foldl dfeStep ⟨[], [], none⟩
    (st.tables, st.dict)

/-- The stripped, non-empty header names of the non-skipped lines, in file
order (the names that can enter ordered_tables). -/
def headerNames : List String → List String
  | [] => []
  | l :: rest =>
    let s := pyStrip l
    if !(extSkip s) && isHeader s && (headerName s != "") then
      headerName s :: headerNames rest
    else headerNames rest

/-- The header-name list of a file, none modelling a missing file. -/
def headerNamesOf (fileLines : Option (List String)) : List String :=
  match fileLines with
  | none => []
  | some lines => headerNames lines

/-- Keeps the first occurrence of each element, dropping later duplicates. -/
def firstOccurStep (acc : List String) (n : String) : List String :=
  if n ∈ acc then acc else acc ++ [n]

/-- The list of first occurrences, in order. -/
def firstOccurList (ns : List String) : List String := ns.foldl firstOccurStep []

/-! ## ExtractorValidator.validate_extractors_for_table
(core/extractor_validator.py lines 83-123) -/

/-- The table-name cleaning at the top of validate_extractors_for_table. -/
def cleanTableName (t : String) : String :=
  if strStartsWith t "ST." && strEndsWith t ".TEST" then (t.drop 3).dropRight 5
  else if strStartsWith t "ST." && strEndsWith t ".JMK" then (t.drop 3).dropRight 4
  else if strStartsWith t "ST." then t.drop 3
  else t

/-- The STANDARD.SELECTION command built for a table. -/
def ssCommand (t : String) : String := "SS, S " ++ cleanTableName t

/-- Oracles for one validation run: execute_command outcomes keyed by the
command string, and membership in the field set scanned from the page. -/
structure ValidatorEnv where
  commandOk : String → Bool
  available : String → Bool

/-- ExtractorValidator.validate_extractors_for_table: on navigation failure it
returns ([], required); otherwise it walks required once, sending each
extractor to the valid or invalid list by page membership. -/
def ExtractorValidator.validate_extractors_for_table (env : ValidatorEnv)
    (tableName : String) (required : List String) : List String × List String :=
  if !env.commandOk (ssCommand tableName) then ([], required)
  else (required.filter (fun e => env.available e),
        required.filter (fun e => !(env.available e)))

/-! ## BatchProcessor construction (processing/table_processor.py lines 24-45) -/

/-- The five filler class names the filler_map of BatchProcessor refers to. -/
inductive BatchFillerClass
  | sbii
  | bji
  | kalsel
  | jamkrindo
  | jambi
deriving DecidableEq

/-- Errors raised by the embedded constructors and processes. -/
inductive PyErr
  | valueError
  | typeError
  | timeoutError
deriving DecidableEq

/-- The filler_map dictionary lookup: batch_version is Optional in the config,
and dict.get returns None for any key not listed. -/
def fillerMap (version : Option String) : Option BatchFillerClass :=
  match version with
  | none => none
  | some s =>
    if s = "sbii" then some .sbii
    else if s = "bji" then some .bji
    else if s = "kalsel" then some .kalsel
    else if s = "jamkrindo" then some .jamkrindo
    else if s = "jambi" then some .jambi
    else none

/-- The constructor's selection step: a missing map entry (falsy FillerClass)
raises ValueError, otherwise the class is kept as the form filler. -/
def BatchProcessor.selectFiller (version : Option String) :
    Except PyErr BatchFillerClass :=
  match fillerMap version with
  | some c => .ok c
  | none => .error .valueError

/-! ## Static name resolution (claim C2)

The import statements and attribute accesses below are transcribed from the
source files; each list is literal. -/

/-- Classes defined at top level of processing/table_processor.py (the
commented-out duplicates of ReportProcessor and DfeMappingProcessor are not
definitions). -/
def tableProcessorDefinedClasses : List String :=
  ["BatchProcessor", "ReportProcessor", "DfeParamProcessor", "DfeMappingProcessor"]

/-- Names app.py imports from processing.table_processor (lines 9-12). -/
def appImportsFromTableProcessor : List String :=
  ["BatchProcessor", "PipelineProcessor", "ReportProcessor", "DfeParamProcessor",
   "DfeMappingProcessor"]

/-- Classes defined at top level of core/form_filler.py. -/
def formFillerDefinedClasses : List String :=
  ["BaseBatchFormFiller", "BatchFormFiller_SBII", "BatchFormFiller_KALSEL",
   "BatchFormFiller_BJI", "BatchFormFiller_JAMBI", "ReportFormFiller",
   "DfeParamFormFiller", "DfeMappingFormFiller"]

/-- Names table_processor.py imports from core.form_filler (lines 10-13). -/
def tableProcessorImportsFromFormFiller : List String :=
  ["BatchFormFiller_JAMKRINDO", "BatchFormFiller_SBII", "BatchFormFiller_KALSEL",
   "BatchFormFiller_BJI", "BatchFormFiller_JAMBI", "ReportFormFiller",
   "DfeParamFormFiller", "DfeMappingFormFiller"]

/-- Static methods defined on DataManager in core/data_manager.py. -/
def dataManagerDefinedMethods : List String :=
  ["load_batch_tables", "load_extractor_data", "load_dfe_params_data",
   "load_dfe_map_data"]

/-- DataManager methods that main() in app.py calls (lines 157-158, 172-174,
231, 237, 239). -/
def mainCalledDataManagerMethods : List String :=
  ["load_extractor_data", "load_batch_commands_and_tables", "load_dfe_params_data",
   "load_dfe_map_data"]

/-! ## PageUtils.select_radio_value_recursive (core/page_utils.py lines 117-163)
and its truthiness-guarded callers (claim C9) -/

/-- The radio buttons found by the recursive search, as (value attribute,
is_selected) pairs in search order, plus whether the JavaScript click runs
without an exception. -/
structure RadioEnv where
  buttons : List (String × Bool)
  clickOk : Bool

/-- PageUtils.select_radio_value_recursive returning the Python (success,
changed) tuple: no matching button (exact value, then case-insensitive) gives
(False, False); an already-selected button gives (True, False); a successful
click gives (True, True); a click exception gives (False, False). -/
def PageUtils.select_radio_value_recursive (env : RadioEnv) (desired : String) :
    Bool × Bool :=
  let target :=
    match env.buttons.find? (fun b => b.1 = desired) with
    | some b => some b
    | none => env.buttons.find? (fun b => pyUpper b.1 = pyUpper desired)
  match target with
  | none => (false, false)
  | some b =>
    if b.2 then (true, false)
    else if env.clickOk then (true, true) else (false, false)

/-- CPython truthiness of the returned pair: a two-element tuple is truthy
regardless of its contents, so the callers' plain truthiness tests see True
even for the failure value (False, False). -/
def pyTruthyPair (_ : Bool × Bool) : Bool := true

/-- Oracles for BaseBatchFormFiller._perform_initial_setup (form_filler.py
lines 157-174): emptiness of the scanned state and the three field fills. -/
structure InitialSetupEnv where
  mainTablesEmpty : Bool
  concatTablesEmpty : Bool
  radio : RadioEnv
  fillJobName : Bool
  fillFrequency : Bool
  fillData : Bool

/-- BaseBatchFormFiller._perform_initial_setup: returns False when the form is
not empty, then runs the radio selection behind the truthiness guard, then the
three field fills. -/
def BaseBatchFormFiller._perform_initial_setup (env : InitialSetupEnv) : Bool :=
  let isFormTrulyEmpty := env.mainTablesEmpty && env.concatTablesEmpty
  if !isFormTrulyEmpty then false
  else if !(pyTruthyPair (PageUtils.select_radio_value_recursive env.radio "F")) then false
  else if !env.fillJobName then false
  else if !env.fillFrequency then false
  else if !env.fillData then false
  else true

/-- Oracles for BatchFormFiller_JAMBI.execute_filling_process (form_filler.py
lines 823-894): the batch file content and the result of the scanning and
row-adding part that follows the early returns, abstracted as one oracle. -/
structure JambiEnv where
  radio : RadioEnv
  fileLines : Option (List String)
  addLoopOk : Bool

/-- BatchFormFiller_JAMBI.execute_filling_process: radio selection behind the
truthiness guard, then early return True when the file yields no jobs,
otherwise the scanning and adding loop (abstracted as addLoopOk). -/
def BatchFormFiller_JAMBI.execute_filling_process (env : JambiEnv) : Bool :=
  if !(pyTruthyPair (PageUtils.select_radio_value_recursive env.radio "F")) then false
  else
    let tablesFromFile := DataManager.load_batch_tables env.fileLines
    if tablesFromFile.isEmpty then true
    else env.addLoopOk

/-- The names of the five mandatory report fields filled by
ReportFormFiller.fill_mandatory_fields (form_filler.py lines 949-955); their
generated values do not influence the control flow and are not modelled. -/
def reportMandatoryFieldNames : List String :=
  ["fieldName:DESCRIPTION", "fieldName:APPLICATION", "fieldName:TARGET.FILE",
   "fieldName:OUTPUT.DIR", "fieldName:SEPARATOR"]

/-- Oracles for ReportFormFiller.fill_mandatory_fields (form_filler.py lines
941-991): the radio presence wait, the radio search, and per-field presence,
current value, and fill outcome. -/
structure MandatoryFieldsEnv where
  radioWaitOk : Bool
  radio : RadioEnv
  fieldFound : String → Bool
  fieldValue : String → String
  fillOk : String → Bool

/-- ReportFormFiller.fill_mandatory_fields: the radio wait (with its CSS
fallback) failing raises into the outer handler (False); the radio selection
sits behind the truthiness guard; each mandatory field must be present, and is
filled only when its current value is empty or whitespace. -/
def ReportFormFiller.fill_mandatory_fields (env : MandatoryFieldsEnv) : Bool :=
  if !env.radioWaitOk then false
  else if !(pyTruthyPair (PageUtils.select_radio_value_recursive env.radio "N")) then false
  else
    reportMandatoryFieldNames.all (fun name =>
      if env.fieldFound name then
        if pyStrip (env.fieldValue name) = "" then env.fillOk name else true
      else false)

/-! ## AutomatApp.run login gate (app.py lines 27-85, claim C10) -/

/-- Oracles for one AutomatApp.run execution: driver initialization, the login
outcome, and whether config.mode is in the processor map. -/
structure RunEnv where
  initOk : Bool
  loginOk : Bool
  modeKnown : Bool

/-- Observable outcome of AutomatApp.run for claim C10. -/
structure RunResult where
  loginAborted : Bool
  processorInstantiated : Bool
  processorExecuted : Bool
deriving DecidableEq

/-- AutomatApp.run: initialization failure raises before login; a False login
raises the Login aborted exception (caught by the handler) before the
processor map is consulted; an unknown mode only logs; otherwise the processor
is instantiated and its process method executed. -/
def AutomatApp.run (env : RunEnv) : RunResult :=
  if !env.initOk then ⟨false, false, false⟩
  else if !env.loginOk then ⟨true, false, false⟩
  else if !env.modeKnown then ⟨false, false, false⟩
  else ⟨false, true, true⟩

/-! ## Python dict assignment and lookup over association lists -/

/-- Python results[k] = v: updates the existing entry in place, or appends a
new one, preserving insertion order. -/
def pyDictSet {α : Type} (d : List (String × α)) (k : String) (v : α) :
    List (String × α) :=
  if k ∈ keysOf d then d.map (fun p => if p.1 = k then (k, v) else p)
  else d ++ [(k, v)]

/-- Python dict lookup. -/
def pyDictGet {α : Type} (d : List (String × α)) (k : String) : Option α :=
  (d.find? (fun p => p.1 = k)).map Prod.snd

/-! ## ReportProcessor.process (processing/table_processor.py lines 235-297,
the active commit-enabled variant) -/

/-- Oracles for one report run, keyed by table name: the configured extractor
lists, the validator's command and page oracles, and the outcomes of the
EXT.REPORT command, the mandatory fill, the dynamic fill, and the commit. -/
structure ReportEnv where
  extractors : String → List String
  ssCmdOk : String → Bool
  available : String → String → Bool
  commandOk : String → Bool
  mandatoryOk : String → Bool
  dynamicOk : String → List String → Bool
  commitOk : String → Bool

/-- The command executed for a report table. -/
def reportCommand (t : String) : String := "EXT.REPORT,INP " ++ t

/-- The valid-extractor list the report loop computes for a table: skipped
(empty) when no extractors are configured, otherwise the validator's first
component. -/
def reportValid (env : ReportEnv) (t : String) : List String :=
  let required := env.extractors t
  if required = [] then []
  else (ExtractorValidator.validate_extractors_for_table
          ⟨env.ssCmdOk, env.available t⟩ t required).1

/-- The validation gate of the report loop: it fails when extractors are
required but none validated. -/
def reportValidationPasses (env : ReportEnv) (t : String) : Bool :=
  if env.extractors t ≠ [] ∧ reportValid env t = [] then false else true

/-- Whether the form of a table is successfully filled, which is exactly the
condition under which the loop reaches the commit call. -/
def reportFillSucceeds (env : ReportEnv) (t : String) : Bool :=
  reportValidationPasses env t
    && env.commandOk (reportCommand t)
    && env.mandatoryOk t
    && (if reportValid env t ≠ [] then env.dynamicOk t (reportValid env t) else true)

/-- The results-dict entry a table ends with: True only when every stage,
commit included, succeeds. -/
def reportOutcome (env : ReportEnv) (t : String) : Bool :=
  reportFillSucceeds env t && env.commitOk t

/-- The observable outcome of ReportProcessor.process: the results dict and the
tables for which CommitHandler.execute_commit was invoked, in order. -/
structure ReportRun where
  results : List (String × Bool)
  committed : List String
deriving DecidableEq

/-- One iteration of the report loop: validation, command, mandatory fill,
dynamic fill, then commit; every failure records False for the table and
continues with the next one. -/
def reportIter (env : ReportEnv) (acc : ReportRun) (t : String) : ReportRun :=
  let required := env.extractors t
  let valid := reportValid env t
  if required ≠ [] ∧ valid = [] then
    { acc with results := pyDictSet acc.results t false }
  else if !env.commandOk (reportCommand t) then
    { acc with results := pyDictSet acc.results t false }
  else if !env.mandatoryOk t then
    { acc with results := pyDictSet acc.results t false }
  else if valid ≠ [] ∧ !env.dynamicOk t valid then
    { acc with results := pyDictSet acc.results t false }
  else if !env.commitOk t then
    { results := pyDictSet acc.results t false, committed := acc.committed ++ [t] }
  else
    { results := pyDictSet acc.results t true, committed := acc.committed ++ [t] }

/-- ReportProcessor.process over config.tables. -/
def ReportProcessor.process (env : ReportEnv) (tables : List String) : ReportRun :=
  tables.foldl (reportIter env) ⟨[], []⟩

/-! ## DfeParamProcessor.process (table_processor.py lines 424-453, the active
commit-enabled variant) -/

/-- Oracles for one DFE parameter run, keyed by table name. -/
structure ParamEnv where
  commandOk : String → Bool
  fillOk : String → Bool
  commitOk : String → Bool
  nextTxnOk : String → Bool

/-- The command executed for the first DFE parameter table. -/
def paramCommand (t : String) : String := "DFE.PARAMETER, " ++ t

/-- Observable outcome of DfeParamProcessor.process. -/
structure ParamRun where
  results : List (String × Bool)
  committed : List String
deriving DecidableEq

/-- The loop body after the first-iteration command: fill failure continues,
commit failure breaks, and a failed next-transaction input also breaks. -/
def paramLoop (env : ParamEnv) : List String → ParamRun → ParamRun
  | [], acc => acc
  | t :: rest, acc =>
    if !env.fillOk t then
      paramLoop env rest { acc with results := pyDictSet acc.results t false }
    else if !env.commitOk t then
      { results := pyDictSet acc.results t false, committed := acc.committed ++ [t] }
    else
      let next := { results := pyDictSet acc.results t true,
                    committed := acc.committed ++ [t] }
      match rest with
      | [] => next
      | t2 :: _ => if !env.nextTxnOk t2 then next else paramLoop env rest next

/-- DfeParamProcessor.process: the DFE.PARAMETER command runs only on the first
iteration and its failure aborts the whole run. -/
def DfeParamProcessor.process (env : ParamEnv) (tables : List String) : ParamRun :=
  match tables with
  | [] => ⟨[], []⟩
  | t :: rest =>
    if !env.commandOk (paramCommand t) then ⟨[(t, false)], []⟩
    else paramLoop env (t :: rest) ⟨[], []⟩

/-! ## DfeMappingProcessor.process (table_processor.py lines 500-554, the
active no-commit test-run variant) -/

/-- Oracles for one DFE mapping run, keyed by table name. -/
structure MappingEnv where
  extractors : String → List String
  ssCmdOk : String → Bool
  available : String → String → Bool
  commandOk : String → Bool
  switchFrameOk : Bool
  mandatoryOk : String → Bool
  dynBatchedOk : String → List String → Bool

/-- The command executed for a DFE mapping table. -/
def mappingCommand (t : String) : String := "DFE.MAPPING, " ++ t

/-- Observable outcome of DfeMappingProcessor.process. -/
structure MappingRun where
  results : List (String × Bool)
  committed : List String
deriving DecidableEq

/-- The valid-extractor list the mapping run computes for its table. -/
def mappingValid (env : MappingEnv) (t : String) : List String :=
  let required := env.extractors t
  if required = [] then []
  else (ExtractorValidator.validate_extractors_for_table
          ⟨env.ssCmdOk, env.available t⟩ t required).1

/-- DfeMappingProcessor.process: handles only the first configured table and
stops before any commit (the active variant is the test run). -/
def DfeMappingProcessor.process (env : MappingEnv) (tables : List String) :
    MappingRun :=
  match tables with
  | [] => ⟨[], []⟩
  | t :: _ =>
    let required := env.extractors t
    let valid := mappingValid env t
    if required ≠ [] ∧ valid = [] then ⟨[(t, false)], []⟩
    else if !env.commandOk (mappingCommand t) then ⟨[(t, false)], []⟩
    else if !env.switchFrameOk then ⟨[(t, false)], []⟩
    else if !env.mandatoryOk t then ⟨[(t, false)], []⟩
    else if valid ≠ [] ∧ !env.dynBatchedOk t valid then ⟨[(t, false)], []⟩
    else ⟨[(t, true)], []⟩

/-! ## BatchProcessor.process (table_processor.py lines 48-87, the active
no-commit variant) and the arity mismatch at line 80 -/

/-- Number of parameters besides self of the active execute_filling_process
definitions (BaseBatchFormFiller line 176 and BatchFormFiller_JAMBI line 823):
both take none. -/
def executeFillingProcessParamCount : Nat := 0

/-- Number of positional arguments BatchProcessor.process passes to
execute_filling_process at table_processor.py line 80: the job's table list. -/
def batchProcessCallArgCount : Nat := 1

/-- Oracles for one batch run: the loaded jobs, the banner command outcomes,
and whether either form-readiness wait succeeds. -/
structure BatchEnv where
  batchJobs : List (String × List String)
  commandOk : String → Bool
  formReady : Bool

/-- Observable outcome of BatchProcessor.process: the returned value or the
exception that escapes, the commands executed, and the commits (the active
variant never calls the commit handler). -/
structure BatchRun where
  result : Except PyErr Bool
  commandsExecuted : List String
  committed : List String

/-- BatchProcessor.process: only the first job is taken; after its command and
the form wait, the call execute_filling_process(tables) passes one positional
argument to a method defined with none, so it raises TypeError, which
propagates out of process. -/
def BatchProcessor.process (env : BatchEnv) : BatchRun :=
  match env.batchJobs with
  | [] => ⟨.ok true, [], []⟩
  | (command, _tables) :: _ =>
    if !env.commandOk command then ⟨.ok false, [command], []⟩
    else if !env.formReady then ⟨.error .timeoutError, [command], []⟩
    else ⟨.error .typeError, [command], []⟩

/-! ## The commit-mode dispatch of AutomatApp.run (app.py lines 56-64) -/

/-- The four execution modes whose processors exist (the pipeline entry of the
processor map names PipelineProcessor, which is not defined; see claim C2). -/
inductive Mode
  | batch
  | report
  | parameter
  | mapping
deriving DecidableEq

/-- Whether the selected processor class has a process_with_commit method:
none of BatchProcessor, ReportProcessor, DfeParamProcessor and
DfeMappingProcessor defines one, so hasattr is False for every mode. -/
def hasProcessWithCommit : Mode → Bool := fun _ => false

/-- Environments of all four processors bundled for an application run. -/
structure AppEnv where
  batchEnv : BatchEnv
  reportEnv : ReportEnv
  reportTables : List String
  paramEnv : ParamEnv
  paramTables : List String
  mappingEnv : MappingEnv
  mappingTables : List String

/-- The tables for which the selected processor's process method invokes
CommitHandler.execute_commit. -/
def processCommitted (m : Mode) (env : AppEnv) : List String :=
  match m with
  | .batch => (BatchProcessor.process env.batchEnv).committed
  | .report => (ReportProcessor.process env.reportEnv env.reportTables).committed
  | .parameter => (DfeParamProcessor.process env.paramEnv env.paramTables).committed
  | .mapping => (DfeMappingProcessor.process env.mappingEnv env.mappingTables).committed

/-- The commit invocations of one AutomatApp.run: process_with_commit would be
called only when commit is enabled and the processor has that method; since no
processor defines it, that branch is unreachable and process runs in both
modes. -/
def AutomatApp.runCommitted (m : Mode) (commitEnabled : Bool) (env : AppEnv) :
    List String :=
  if commitEnabled && hasProcessWithCommit m then []
  else processCommitted m env

/-! ## Concrete environments used to evaluate the embeddings -/

/-- A report environment in which every browser interaction succeeds and no
extractors are configured. -/
def allTrueReportEnv : ReportEnv where
  extractors := fun _ => []
  ssCmdOk := fun _ => true
  available := fun _ _ => true
  commandOk := fun _ => true
  mandatoryOk := fun _ => true
  dynamicOk := fun _ _ => true
  commitOk := fun _ => true

/-- An application environment where every interaction succeeds, with one
report table, one parameter table and one mapping table. -/
def c1AppEnv : AppEnv where
  batchEnv := ⟨[], fun _ => true, true⟩
  reportEnv := allTrueReportEnv
  reportTables := ["T"]
  paramEnv := ⟨fun _ => true, fun _ => true, fun _ => true, fun _ => true⟩
  paramTables := ["P"]
  mappingEnv := ⟨fun _ => [], fun _ => true, fun _ _ => true, fun _ => true, true,
                 fun _ => true, fun _ _ => true⟩
  mappingTables := ["M"]

/-- A batch environment with two loaded jobs and all interactions succeeding. -/
def c3BatchEnv : BatchEnv where
  batchJobs := [("BATCH.NEW,INP BNK/ONE", ["ST.A"]), ("BATCH.NEW,INP BNK/TWO", ["ST.B"])]
  commandOk := fun _ => true
  formReady := true

/-- A report environment in which only the EXT.REPORT command for table B
fails. -/
def c6ReportEnv : ReportEnv where
  extractors := fun _ => []
  ssCmdOk := fun _ => true
  available := fun _ _ => true
  commandOk := fun c => c != reportCommand "B"
  mandatoryOk := fun _ => true
  dynamicOk := fun _ _ => true
  commitOk := fun _ => true

/-! # Theorems -/

/-! ## Claim C5: DataManager.load_batch_tables -/

theorem cleanBatchLines_cons (l : String) (rest : List String) :
    cleanBatchLines (l :: rest) =
      if batchSkip (pyStrip l) then cleanBatchLines rest
      else pyStrip l :: cleanBatchLines rest := by
  simp only [cleanBatchLines, List.map_cons, List.filter_cons]
  cases h : batchSkip (pyStrip l) <;> simp [h]

theorem loadBatchTablesGo_eq_clean (lines : List String) :
    ∀ (cur : Option String) (ts : List String),
      loadBatchTablesGo lines cur ts = loadBatchTablesClean (cleanBatchLines lines) cur ts := by
  induction lines with
  | nil => intro cur ts; rfl
  | cons l rest ih =>
    intro cur ts
    rw [cleanBatchLines_cons]
    cases hskip : batchSkip (pyStrip l) with
    | true => simp only [loadBatchTablesGo, hskip, if_true]; exact ih cur ts
    | false =>
      cases hh : isHeader (pyStrip l) with
      | true =>
        simp only [loadBatchTablesGo, loadBatchTablesClean, hskip, hh]
        simp [ih]
      | false =>
        cases cur with
        | some c =>
          simp only [loadBatchTablesGo, loadBatchTablesClean, hskip, hh]
          simp [ih]
        | none =>
          simp only [loadBatchTablesGo, loadBatchTablesClean, hskip, hh]
          simp [ih]

theorem lbtEmit_eq_filter (c : String) (ts : List String) :
    lbtEmit (some c) ts = [(c, ts)].filter keepAmended := by
  simp only [lbtEmit, List.filter, keepAmended]
  cases h : !(c == "") && !ts.isEmpty <;> simp [h]

theorem loadBatchTablesClean_some (rest : List String) :
    ∀ (c : String) (acc : List String),
      loadBatchTablesClean rest (some c) acc =
        ((c, acc ++ rest.takeWhile (fun s => !(isHeader s))) ::
          specSections (rest.dropWhile (fun s => !(isHeader s)))).filter keepAmended := by
  induction rest with
  | nil =>
    intro c acc
    show lbtEmit (some c) acc = _
    rw [lbtEmit_eq_filter]
    simp [specSections]
  | cons l rest ih =>
    intro c acc
    cases hh : isHeader l with
    | true =>
      simp only [loadBatchTablesClean, hh, if_true]
      rw [ih (headerName l) [], lbtEmit_eq_filter]
      rw [List.takeWhile_cons, List.dropWhile_cons]
      simp only [hh, Bool.not_true, Bool.false_eq_true, if_false]
      rw [specSections, if_pos hh]
      simp only [List.filter_cons, List.nil_append]
      cases hA : keepAmended (c, acc) <;> simp [hA]
    | false =>
      simp only [loadBatchTablesClean, hh, Bool.false_eq_true, if_false]
      rw [ih c (acc ++ [l])]
      rw [List.takeWhile_cons, List.dropWhile_cons]
      simp [hh, List.append_assoc]

theorem loadBatchTablesClean_none (lines : List String) :
    ∀ (ts : List String),
      loadBatchTablesClean lines none ts = (specSections lines).filter keepAmended := by
  induction lines with
  | nil => intro ts; simp [loadBatchTablesClean, lbtEmit, specSections]
  | cons l rest ih =>
    intro ts
    cases hh : isHeader l with
    | true =>
      simp only [loadBatchTablesClean, hh, if_true, lbtEmit, List.nil_append]
      rw [loadBatchTablesClean_some rest (headerName l) []]
      rw [specSections, if_pos hh]
      simp
    | false =>
      simp only [loadBatchTablesClean, hh, Bool.false_eq_true, if_false]
      rw [ih ts]
      rw [specSections, if_neg (by simp [hh])]

/-- C5 counterexample: on the file with lines [] and T, the code drops the
section whose command is empty even though its table list is non-empty, while
the claim's reading keeps it, so load_batch_tables does not satisfy the
claimed characterization. -/
theorem C5_counterexample :
    DataManager.load_batch_tables (some ["[]", "T"]) ≠
      load_batch_tables_spec_claimed (some ["[]", "T"]) := by
  have hL : DataManager.load_batch_tables (some ["[]", "T"]) = [] := by rfl
  have hR : load_batch_tables_spec_claimed (some ["[]", "T"]) = [("", ["T"])] := by
    show (specSections (cleanBatchLines ["[]", "T"])).filter keepClaimed = _
    have hclean : cleanBatchLines ["[]", "T"] = ["[]", "T"] := by rfl
    rw [hclean]
    rw [specSections, if_pos (show isHeader "[]" = true from rfl)]
    rw [show List.dropWhile (fun s => !(isHeader s)) ["T"] = [] from rfl]
    rw [specSections]
    rfl
  rw [hL, hR]
  simp

/-- C5 (amended): for every text file, load_batch_tables returns the sections
in file order, where a [X] line starts a section with stripped command X,
subsequent non-empty non-comment stripped lines become its tables, lines
before the first header are ignored, and a section is omitted when its table
list is empty or its command is empty after stripping; a missing file yields
the empty list. -/
theorem C5_load_batch_tables_amended (fileLines : Option (List String)) :
    DataManager.load_batch_tables fileLines = load_batch_tables_spec_amended fileLines := by
  cases fileLines with
  | none => rfl
  | some lines =>
    show loadBatchTablesGo lines none [] = _
    rw [loadBatchTablesGo_eq_clean, loadBatchTablesClean_none]
    rfl

/-! ## Claim C7: the two extractor loaders and their invariants -/

theorem keysOf_dictAppend (d : List (String × List String)) (k v : String) :
    keysOf (dictAppend d k v) = keysOf d := by
  induction d with
  | nil => rfl
  | cons p d ih =>
    simp only [dictAppend, keysOf, List.map_cons] at *
    by_cases h : p.1 = k <;> simp [h, ih]

theorem extFold_master (lines : List String) :
    ∀ st : ExtState, st.tables = keysOf st.dict →
      (lines.foldl extStep st).tables = keysOf (lines.foldl extStep st).dict ∧
      (lines.foldl extStep st).tables =
        (headerNames lines).foldl firstOccurStep st.tables := by
  induction lines with
  | nil => intro st h; exact ⟨h, rfl⟩
  | cons l rest ih =>
    intro st h
    rw [List.foldl_cons]
    cases hskip : extSkip (pyStrip l) with
    | true =>
      have hstep : extStep st l = st := by simp [extStep, hskip]
      have hnames : headerNames (l :: rest) = headerNames rest := by
        simp [headerNames, hskip]
      rw [hstep, hnames]
      exact ih st h
    | false =>
      cases hh : isHeader (pyStrip l) with
      | true =>
        by_cases ht : headerName (pyStrip l) = ""
        · have hstep : extStep st l = { st with cur := some (headerName (pyStrip l)) } := by
            simp [extStep, hskip, hh, ht]
          have hnames : headerNames (l :: rest) = headerNames rest := by
            simp [headerNames, hskip, hh, ht]
          rw [hstep, hnames]
          exact ih _ h
        · by_cases hmem : headerName (pyStrip l) ∈ keysOf st.dict
          · have hstep : extStep st l = { st with cur := some (headerName (pyStrip l)) } := by
              simp [extStep, hskip, hh, hmem]
            have hnames : headerNames (l :: rest) =
                headerName (pyStrip l) :: headerNames rest := by
              simp [headerNames, hskip, hh, ht]
            have hfo : firstOccurStep st.tables (headerName (pyStrip l)) = st.tables := by
              simp [firstOccurStep, h ▸ hmem]
            rw [hstep, hnames, List.foldl_cons, hfo]
            exact ih _ h
          · have hstep : extStep st l =
                ⟨st.tables ++ [headerName (pyStrip l)],
                 st.dict ++ [(headerName (pyStrip l), [])],
                 some (headerName (pyStrip l))⟩ := by
              simp [extStep, hskip, hh, ht, hmem]
            have hnames : headerNames (l :: rest) =
                headerName (pyStrip l) :: headerNames rest := by
              simp [headerNames, hskip, hh, ht]
            have hfo : firstOccurStep st.tables (headerName (pyStrip l)) =
                st.tables ++ [headerName (pyStrip l)] := by
              simp [firstOccurStep, h ▸ hmem]
            rw [hstep, hnames, List.foldl_cons, hfo]
            exact ih _ (by simp [keysOf, h])
      | false =>
        have hnames : headerNames (l :: rest) = headerNames rest := by
          simp [headerNames, hh]
        rw [hnames]
        cases hcur : st.cur with
        | none =>
          have hstep : extStep st l = st := by simp [extStep, hskip, hh, hcur]
          rw [hstep]
          exact ih st h
        | some t =>
          by_cases ht : t = ""
          · have hstep : extStep st l = st := by simp [extStep, hskip, hh, hcur, ht]
            rw [hstep]
            exact ih st h
          · have hstep : extStep st l = { st with dict := dictAppend st.dict t (pyStrip l) } := by
              simp [extStep, hskip, hh, hcur, ht]
            rw [hstep]
            exact ih _ (by simp [keysOf_dictAppend, h])

theorem firstOccur_fold_nodup (ns : List String) :
    ∀ acc : List String, acc.Nodup → (ns.foldl firstOccurStep acc).Nodup := by
  induction ns with
  | nil => intro acc h; exact h
  | cons n ns ih =>
    intro acc h
    rw [List.foldl_cons]
    apply ih
    by_cases hm : n ∈ acc
    · simpa [firstOccurStep, hm]
    · have : (acc ++ [n]).Nodup := by
        rw [List.nodup_append]
        refine ⟨h, List.nodup_singleton n, ?_⟩
        intro x hx hmem
        rw [List.mem_singleton] at hmem
        exact hm (hmem ▸ hx)
      simpa [firstOccurStep, hm]

theorem extStep_repeated_header (st : ExtState) (l : String)
    (h1 : extSkip (pyStrip l) = false) (h2 : isHeader (pyStrip l) = true)
    (h3 : headerName (pyStrip l) ∈ keysOf st.dict) :
    extStep st l = { st with cur := some (headerName (pyStrip l)) } := by
  simp [extStep, h1, h2, h3]

theorem extStep_data_append (st : ExtState) (l t : String)
    (h1 : extSkip (pyStrip l) = false) (h2 : isHeader (pyStrip l) = false)
    (h3 : st.cur = some t) (h4 : t ≠ "") :
    extStep st l = { st with dict := dictAppend st.dict t (pyStrip l) } := by
  simp [extStep, h1, h2, h3, h4]

/-- C7: load_extractor_data and load_dfe_map_data behave identically; the
returned ordered_tables has no duplicates, equals the key list of
extractors_dict, and lists tables in order of first occurrence of their
section header; a repeated header neither re-registers its table nor creates a
new dict entry (it only resets current_table), and a subsequent data line is
appended to the already-existing table's list. -/
theorem C7_loader_invariants (fileLines : Option (List String)) :
    DataManager.load_extractor_data fileLines = DataManager.load_dfe_map_data fileLines
    ∧ (DataManager.load_extractor_data fileLines).1.Nodup
    ∧ keysOf (DataManager.load_extractor_data fileLines).2 =
        (DataManager.load_extractor_data fileLines).1
    ∧ (DataManager.load_extractor_data fileLines).1 = firstOccurList (headerNamesOf fileLines)
    ∧ (∀ (st : ExtState) (l : String), extSkip (pyStrip l) = false →
        isHeader (pyStrip l) = true → headerName (pyStrip l) ∈ keysOf st.dict →
        extStep st l = { st with cur := some (headerName (pyStrip l)) })
    ∧ (∀ (st : ExtState) (l t : String), extSkip (pyStrip l) = false →
        isHeader (pyStrip l) = false → st.cur = some t → t ≠ "" →
        extStep st l = { st with dict := dictAppend st.dict t (pyStrip l) }) := by
  refine ⟨?_, ?_, ?_, ?_, extStep_repeated_header, extStep_data_append⟩
  · cases fileLines <;> rfl
  · cases fileLines with
    | none => exact List.nodup_nil
    | some lines =>
      have h := extFold_master lines ⟨[], [], none⟩ rfl
      have h2 : (DataManager.load_extractor_data (some lines)).1 =
          (headerNames lines).foldl firstOccurStep [] := h.2
      rw [h2]
      exact firstOccur_fold_nodup _ [] List.nodup_nil
  · cases fileLines with
    | none => rfl
    | some lines => exact (extFold_master lines ⟨[], [], none⟩ rfl).1.symm
  · cases fileLines with
    | none => rfl
    | some lines => exact (extFold_master lines ⟨[], [], none⟩ rfl).2

/-- C7 witness: the invariants evaluated on a concrete file with a repeated
header, showing the repeated header leaves the state unchanged except for
current_table and the following data line is appended to the existing list. -/
theorem C7_loader_invariants_witness :
    extStep ⟨["T"], [("T", ["a"])], some "T"⟩ "[T]" = ⟨["T"], [("T", ["a"])], some "T"⟩
    ∧ extStep ⟨["T"], [("T", ["a"])], some "T"⟩ "b" = ⟨["T"], [("T", ["a", "b"])], some "T"⟩
    ∧ DataManager.load_extractor_data (some ["[T]", "a", "[T]", "b"]) =
        (["T"], [("T", ["a", "b"])]) := by
  have h := C7_loader_invariants (some ["[T]", "a", "[T]", "b"])
  refine ⟨?_, ?_, by decide⟩
  · exact (h.2.2.2.2.1 ⟨["T"], [("T", ["a"])], some "T"⟩ "[T]"
      (by decide) (by decide) (by decide)).trans (by decide)
  · exact (h.2.2.2.2.2 ⟨["T"], [("T", ["a"])], some "T"⟩ "b" "T"
      (by decide) (by decide) rfl (by decide)).trans (by decide)

/-! ## Claim C8: ExtractorValidator.validate_extractors_for_table -/

theorem count_filter_add (p : String → Bool) (l : List String) (x : String) :
    ((l.filter p).count x) + ((l.filter (fun a => !(p a))).count x) = l.count x := by
  induction l with
  | nil => rfl
  | cons a l ih =>
    cases hpa : p a <;> simp [List.filter_cons, hpa, List.count_cons] <;> omega

/-- C8: the validator's result partitions required_extractors: both components
are subsequences of it in order, together they contain every occurrence of its
elements, they are disjoint, and when navigation to the STANDARD.SELECTION
page fails the result is ([], required_extractors). -/
theorem C8_validator_partition (env : ValidatorEnv) (tableName : String)
    (required : List String) :
    (ExtractorValidator.validate_extractors_for_table env tableName required).1.Sublist required
    ∧ (ExtractorValidator.validate_extractors_for_table env tableName required).2.Sublist required
    ∧ (∀ x, (ExtractorValidator.validate_extractors_for_table env tableName required).1.count x +
        (ExtractorValidator.validate_extractors_for_table env tableName required).2.count x =
        required.count x)
    ∧ (∀ x, x ∈ (ExtractorValidator.validate_extractors_for_table env tableName required).1 →
        x ∉ (ExtractorValidator.validate_extractors_for_table env tableName required).2)
    ∧ (env.commandOk (ssCommand tableName) = false →
        ExtractorValidator.validate_extractors_for_table env tableName required =
          ([], required)) := by
  cases hc : env.commandOk (ssCommand tableName) with
  | false =>
    have hres : ExtractorValidator.validate_extractors_for_table env tableName required =
        ([], required) := by
      unfold ExtractorValidator.validate_extractors_for_table
      rw [hc]
      rfl
    rw [hres]
    refine ⟨List.nil_sublist _, List.Sublist.refl _, ?_, ?_, fun _ => rfl⟩
    · intro x; simp
    · intro x hx; simp at hx
  | true =>
    have hres : ExtractorValidator.validate_extractors_for_table env tableName required =
        (required.filter (fun e => env.available e),
         required.filter (fun e => !(env.available e))) := by
      unfold ExtractorValidator.validate_extractors_for_table
      rw [hc]
      rfl
    rw [hres]
    refine ⟨List.filter_sublist _, List.filter_sublist _, count_filter_add _ required, ?_, ?_⟩
    · intro x hx1 hx2
      simp only [List.mem_filter] at hx1 hx2
      rw [hx1.2] at hx2
      simp at hx2
    · intro hfalse
      simp at hfalse

/-- C8 witness: with navigation failing, the validator returns the empty valid
list and the full required list. -/
theorem C8_validator_partition_witness :
    ExtractorValidator.validate_extractors_for_table ⟨fun _ => false, fun _ => true⟩
      "ST.AA.TEST" ["F1", "F2"] = ([], ["F1", "F2"]) :=
  (C8_validator_partition ⟨fun _ => false, fun _ => true⟩ "ST.AA.TEST" ["F1", "F2"]).2.2.2.2 rfl

/-! ## Claim C6: ReportProcessor.process -/

theorem reportIter_char (env : ReportEnv) (acc : ReportRun) (t : String) :
    reportIter env acc t =
      ⟨pyDictSet acc.results t (reportOutcome env t),
       acc.committed ++ (if reportFillSucceeds env t then [t] else [])⟩ := by
  unfold reportIter reportOutcome reportFillSucceeds reportValidationPasses
  by_cases h1 : env.extractors t ≠ [] ∧ reportValid env t = []
  · simp [h1]
  · cases hcmd : env.commandOk (reportCommand t) with
    | false => simp [h1, hcmd]
    | true =>
      cases hmand : env.mandatoryOk t with
      | false => simp [h1, hcmd, hmand]
      | true =>
        by_cases hdyn : reportValid env t ≠ [] ∧ !env.dynamicOk t (reportValid env t)
        · have hd : (if reportValid env t ≠ [] then env.dynamicOk t (reportValid env t)
              else true) = false := by
            rw [if_pos hdyn.1]
            simpa using hdyn.2
          have hdf : env.dynamicOk t (reportValid env t) = false := by simpa using hdyn.2
          simp [h1, hcmd, hmand, hdyn, hd, hdf]
        · have hd : (if reportValid env t ≠ [] then env.dynamicOk t (reportValid env t)
              else true) = true := by
            by_cases hv : reportValid env t ≠ []
            · rw [if_pos hv]
              rcases not_and_or.mp hdyn with hc | hc
              · exact absurd hv hc
              · simpa using hc
            · rw [if_neg hv]
          cases hcommit : env.commitOk t with
          | false =>
            simp [h1, hcmd, hmand, hdyn, hd, hcommit]
            exact fun hv => by rwa [if_pos hv] at hd
          | true =>
            simp [h1, hcmd, hmand, hdyn, hd, hcommit]
            exact fun hv => by rwa [if_pos hv] at hd

theorem report_process_char (env : ReportEnv) (tables : List String) :
    ∀ acc : ReportRun,
      tables.foldl (reportIter env) acc =
        ⟨tables.foldl (fun r t => pyDictSet r t (reportOutcome env t)) acc.results,
         acc.committed ++ tables.filter (reportFillSucceeds env)⟩ := by
  induction tables with
  | nil => intro acc; cases acc; simp
  | cons t ts ih =>
    intro acc
    rw [List.foldl_cons, reportIter_char, ih]
    simp only [List.foldl_cons, List.filter_cons]
    cases hf : reportFillSucceeds env t <;> simp [hf, List.append_assoc]

theorem map_pair_update_self (f : String → Bool) (acc : List String) (t : String) :
    (acc.map (fun a => (a, f a))).map (fun p => if p.1 = t then (t, f t) else p) =
      acc.map (fun a => (a, f a)) := by
  induction acc with
  | nil => rfl
  | cons a l ih =>
    simp only [List.map_cons, ih]
    by_cases ha : a = t
    · subst ha; simp
    · simp [ha]

theorem keysOf_map_pair (f : String → Bool) (acc : List String) :
    keysOf (acc.map (fun a => (a, f a))) = acc := by
  induction acc with
  | nil => rfl
  | cons a l ih => simp [keysOf, List.map_cons] at *; exact ih

theorem pyset_fold_map (f : String → Bool) (tables : List String) :
    ∀ acc : List String,
      tables.foldl (fun r t => pyDictSet r t (f t)) (acc.map (fun a => (a, f a))) =
        (tables.foldl firstOccurStep acc).map (fun a => (a, f a)) := by
  induction tables with
  | nil => intro acc; rfl
  | cons t ts ih =>
    intro acc
    rw [List.foldl_cons, List.foldl_cons]
    by_cases hm : t ∈ acc
    · have hset : pyDictSet (acc.map (fun a => (a, f a))) t (f t) =
          acc.map (fun a => (a, f a)) := by
        unfold pyDictSet
        rw [if_pos (by rw [keysOf_map_pair]; exact hm)]
        exact map_pair_update_self f acc t
      rw [hset, show firstOccurStep acc t = acc from if_pos hm]
      exact ih acc
    · have hset : pyDictSet (acc.map (fun a => (a, f a))) t (f t) =
          (acc ++ [t]).map (fun a => (a, f a)) := by
        unfold pyDictSet
        rw [if_neg (by rw [keysOf_map_pair]; exact hm)]
        simp
      rw [hset, show firstOccurStep acc t = acc ++ [t] from if_neg hm]
      exact ih (acc ++ [t])

theorem pyDictGet_map_pair (f : String → Bool) (l : List String) (t : String) :
    t ∈ l → pyDictGet (l.map (fun a => (a, f a))) t = some (f t) := by
  induction l with
  | nil => intro h; cases h
  | cons a l ih =>
    intro h
    unfold pyDictGet at *
    simp only [List.map_cons, List.find?]
    by_cases ha : a = t
    · subst ha; simp
    · have ht : t ∈ l := by
        rcases List.mem_cons.mp h with h1 | h2
        · exact absurd h1.symm ha
        · exact h2
      simpa [ha] using ih ht

theorem mem_foldl_firstOccurStep (ns : List String) :
    ∀ (acc : List String) (x : String),
      x ∈ ns.foldl firstOccurStep acc ↔ x ∈ acc ∨ x ∈ ns := by
  induction ns with
  | nil => intro acc x; simp
  | cons n ns ih =>
    intro acc x
    rw [List.foldl_cons, ih]
    unfold firstOccurStep
    by_cases hm : n ∈ acc
    · rw [if_pos hm]
      simp only [List.mem_cons]
      constructor
      · rintro (h | h)
        · exact Or.inl h
        · exact Or.inr (Or.inr h)
      · rintro (h | h | h)
        · exact Or.inl h
        · exact Or.inl (h ▸ hm)
        · exact Or.inr h
    · rw [if_neg hm]
      simp [List.mem_append, or_assoc]

/-- C6: ReportProcessor.process returns a results dict holding, for every
distinct table of config.tables in first-occurrence order, that table's own
outcome (false exactly when its validation, command, form-filling or commit
stage fails), so a failure for one table does not prevent any later table from
being processed. -/
theorem C6_report_process_results (env : ReportEnv) (tables : List String) :
    (ReportProcessor.process env tables).results =
      (firstOccurList tables).map (fun t => (t, reportOutcome env t))
    ∧ ∀ t, t ∈ tables →
        pyDictGet (ReportProcessor.process env tables).results t =
          some (reportOutcome env t) := by
  have hr : (ReportProcessor.process env tables).results =
      (firstOccurList tables).map (fun t => (t, reportOutcome env t)) := by
    unfold ReportProcessor.process
    rw [report_process_char env tables ⟨[], []⟩]
    exact pyset_fold_map (reportOutcome env) tables []
  refine ⟨hr, ?_⟩
  intro t ht
  rw [hr]
  exact pyDictGet_map_pair (reportOutcome env) (firstOccurList tables) t
    ((mem_foldl_firstOccurStep tables [] t).mpr (Or.inr ht))

/-- C6 witness: with table B's EXT.REPORT command failing, B's entry is false
while the later table C is still processed and ends true. -/
theorem C6_report_process_results_witness :
    pyDictGet (ReportProcessor.process c6ReportEnv ["A", "B", "C"]).results "B" = some false
    ∧ pyDictGet (ReportProcessor.process c6ReportEnv ["A", "B", "C"]).results "C" = some true := by
  have h := C6_report_process_results c6ReportEnv ["A", "B", "C"]
  constructor
  · exact (h.2 "B" (by decide)).trans (by decide)
  · exact (h.2 "C" (by decide)).trans (by decide)

/-! ## Claim C1: commit behaviour across the execution modes -/

theorem paramLoop_committed_mono (env : ParamEnv) :
    ∀ (ts : List String) (acc : ParamRun) (x : String),
      x ∈ acc.committed → x ∈ (paramLoop env ts acc).committed := by
  intro ts
  induction ts with
  | nil => intro acc x h; exact h
  | cons t rest ih =>
    intro acc x h
    unfold paramLoop
    cases hf : env.fillOk t with
    | false =>
      simp only [hf, Bool.not_false, if_true]
      exact ih _ x h
    | true =>
      simp only [hf, Bool.not_true, Bool.false_eq_true, if_false]
      cases hc : env.commitOk t with
      | false =>
        simp only [hc, Bool.not_false, if_true, List.mem_append]
        exact Or.inl h
      | true =>
        simp only [hc, Bool.not_true, Bool.false_eq_true, if_false]
        cases rest with
        | nil =>
          simp only [List.mem_append]
          exact Or.inl h
        | cons t2 r2 =>
          cases hn : env.nextTxnOk t2 with
          | false =>
            simp only [hn, Bool.not_false, if_true, List.mem_append]
            exact Or.inl h
          | true =>
            simp only [hn, Bool.not_true, Bool.false_eq_true, if_false]
            exact ih _ x (by simp [List.mem_append]; exact Or.inl h)

theorem batch_committed_nil (env : BatchEnv) :
    (BatchProcessor.process env).committed = [] := by
  cases h : env.batchJobs with
  | nil => simp [BatchProcessor.process, h]
  | cons j rest =>
    obtain ⟨c, ts⟩ := j
    simp only [BatchProcessor.process, h]
    split_ifs <;> rfl

theorem mapping_committed_nil (env : MappingEnv) (tables : List String) :
    (DfeMappingProcessor.process env tables).committed = [] := by
  cases tables with
  | nil => rfl
  | cons t rest =>
    simp only [DfeMappingProcessor.process]
    split_ifs <;> rfl

/-- C1 (amended): the operator's commit flag does not govern committing: no
processor defines process_with_commit, so the plain process method runs in
both modes; ReportProcessor invokes CommitHandler.execute_commit exactly for
the tables whose form filling succeeds and DfeParamProcessor invokes it for
each table it successfully fills, regardless of the flag, while
BatchProcessor and DfeMappingProcessor never invoke it, even with commit
enabled. -/
theorem C1_commit_flag_ignored (m : Mode) (flag : Bool) (env : AppEnv) :
    AutomatApp.runCommitted m flag env = processCommitted m env
    ∧ (ReportProcessor.process env.reportEnv env.reportTables).committed =
        env.reportTables.filter (reportFillSucceeds env.reportEnv)
    ∧ (BatchProcessor.process env.batchEnv).committed = []
    ∧ (DfeMappingProcessor.process env.mappingEnv env.mappingTables).committed = []
    ∧ (∀ t rest, env.paramTables = t :: rest →
        env.paramEnv.commandOk (paramCommand t) = true →
        env.paramEnv.fillOk t = true →
        t ∈ (DfeParamProcessor.process env.paramEnv env.paramTables).committed) := by
  refine ⟨?_, ?_, batch_committed_nil env.batchEnv, mapping_committed_nil _ _, ?_⟩
  · unfold AutomatApp.runCommitted
    rw [show hasProcessWithCommit m = false from rfl]
    simp
  · unfold ReportProcessor.process
    rw [report_process_char env.reportEnv env.reportTables ⟨[], []⟩]
    simp
  · intro t rest hparam hcmd hfill
    rw [hparam]
    rw [show DfeParamProcessor.process env.paramEnv (t :: rest) =
      (if !env.paramEnv.commandOk (paramCommand t) then ⟨[(t, false)], []⟩
       else paramLoop env.paramEnv (t :: rest) ⟨[], []⟩) from rfl]
    rw [show (!env.paramEnv.commandOk (paramCommand t)) = false by simp [hcmd]]
    simp only [Bool.false_eq_true, if_false]
    unfold paramLoop
    rw [show (!env.paramEnv.fillOk t) = false by simp [hfill]]
    simp only [Bool.false_eq_true, if_false]
    cases hc : env.paramEnv.commitOk t with
    | false => simp [hc]
    | true =>
      simp only [hc, Bool.not_true, Bool.false_eq_true, if_false]
      cases rest with
      | nil => simp
      | cons t2 r2 =>
        cases hn : env.paramEnv.nextTxnOk t2 with
        | false => simp [hn]
        | true =>
          simp only [hn, Bool.not_true, Bool.false_eq_true, if_false]
          exact paramLoop_committed_mono env.paramEnv _ _ t (by simp)

/-- C1 counterexample: in report mode with commit disabled (test mode), a
table whose stages all succeed is still committed, contradicting the claim
that no transaction is committed when commit mode is disabled. -/
theorem C1_counterexample :
    ¬ (AutomatApp.runCommitted Mode.report false c1AppEnv = []) := by decide

/-- C1 witness: the flag-independence of the dispatch and the parameter-mode
commit evaluated at a concrete environment. -/
theorem C1_commit_flag_ignored_witness :
    AutomatApp.runCommitted Mode.parameter true c1AppEnv =
      processCommitted Mode.parameter c1AppEnv
    ∧ "P" ∈ (DfeParamProcessor.process c1AppEnv.paramEnv c1AppEnv.paramTables).committed :=
  ⟨(C1_commit_flag_ignored Mode.parameter true c1AppEnv).1,
   (C1_commit_flag_ignored Mode.parameter true c1AppEnv).2.2.2.2 "P" [] rfl rfl rfl⟩

/-! ## Claim C2: static name resolution of the entry point -/

/-- C2: three names referenced by the entry point do not resolve: app.py
imports PipelineProcessor from processing.table_processor and
table_processor.py imports BatchFormFiller_JAMKRINDO from core.form_filler,
neither of which is defined, and main() calls
DataManager.load_batch_commands_and_tables, which DataManager does not define
(it defines load_batch_tables); loading app.py therefore raises ImportError
before any browser automation. -/
theorem C2_unresolved_names :
    ("PipelineProcessor" ∈ appImportsFromTableProcessor
      ∧ "PipelineProcessor" ∉ tableProcessorDefinedClasses)
    ∧ ("BatchFormFiller_JAMKRINDO" ∈ tableProcessorImportsFromFormFiller
      ∧ "BatchFormFiller_JAMKRINDO" ∉ formFillerDefinedClasses)
    ∧ ("load_batch_commands_and_tables" ∈ mainCalledDataManagerMethods
      ∧ "load_batch_commands_and_tables" ∉ dataManagerDefinedMethods) := by
  decide

/-! ## Claim C3: BatchProcessor.process -/

/-- C3: with at least one loaded job whose command executes and whose form
becomes ready, BatchProcessor.process executes only the first job's command
and then raises TypeError at the execute_filling_process call, because the
call passes the job's table list while the active method definitions take no
argument; no later job is processed and no success value is returned. -/
theorem C3_batch_first_job_type_error (env : BatchEnv) (c : String)
    (ts : List String) (rest : List (String × List String))
    (hjobs : env.batchJobs = (c, ts) :: rest)
    (hcmd : env.commandOk c = true) (hready : env.formReady = true) :
    BatchProcessor.process env = ⟨.error .typeError, [c], []⟩
    ∧ batchProcessCallArgCount ≠ executeFillingProcessParamCount := by
  constructor
  · unfold BatchProcessor.process
    rw [hjobs]
    simp [hcmd, hready]
  · decide

/-- C3 witness: a two-job environment in which every interaction succeeds
still ends in TypeError after only the first command. -/
theorem C3_batch_first_job_type_error_witness :
    BatchProcessor.process c3BatchEnv =
      ⟨.error .typeError, ["BATCH.NEW,INP BNK/ONE"], []⟩ :=
  (C3_batch_first_job_type_error c3BatchEnv "BATCH.NEW,INP BNK/ONE" ["ST.A"]
    [("BATCH.NEW,INP BNK/TWO", ["ST.B"])] rfl rfl rfl).1

/-! ## Claim C4: filler class selection -/

/-- C4: the constructor's filler_map selects the filler class named for each
of the five known batch_version strings and raises ValueError for any other
value. -/
theorem C4_filler_selection :
    BatchProcessor.selectFiller (some "sbii") = .ok .sbii
    ∧ BatchProcessor.selectFiller (some "bji") = .ok .bji
    ∧ BatchProcessor.selectFiller (some "kalsel") = .ok .kalsel
    ∧ BatchProcessor.selectFiller (some "jamkrindo") = .ok .jamkrindo
    ∧ BatchProcessor.selectFiller (some "jambi") = .ok .jambi
    ∧ (∀ v : String, v ∉ ["sbii", "bji", "kalsel", "jamkrindo", "jambi"] →
        BatchProcessor.selectFiller (some v) = .error .valueError) := by
  refine ⟨rfl, rfl, rfl, rfl, rfl, ?_⟩
  intro v hv
  simp only [List.mem_cons, List.not_mem_nil, or_false, not_or] at hv
  obtain ⟨h1, h2, h3, h4, h5⟩ := hv
  unfold BatchProcessor.selectFiller fillerMap
  simp [h1, h2, h3, h4, h5]

/-- C4 witness: selection evaluated at a known and at an unknown version. -/
theorem C4_filler_selection_witness :
    BatchProcessor.selectFiller (some "sbii") = .ok .sbii
    ∧ BatchProcessor.selectFiller (some "unknown") = .error .valueError :=
  ⟨C4_filler_selection.1, C4_filler_selection.2.2.2.2.2 "unknown" (by decide)⟩

/-! ## Claim C9: the truthiness guards around radio selection -/

/-- C9: select_radio_value_recursive returns the tuple (False, False) when no
radio button matches, but the plain truthiness guards in
BaseBatchFormFiller._perform_initial_setup,
BatchFormFiller_JAMBI.execute_filling_process and
ReportFormFiller.fill_mandatory_fields never fire, because a two-element
tuple is truthy in Python: with selection failing, each caller proceeds and
can return True instead of taking its error branch and returning False. -/
theorem C9_radio_guard_dead :
    PageUtils.select_radio_value_recursive ⟨[], true⟩ "F" = (false, false)
    ∧ BaseBatchFormFiller._perform_initial_setup
        ⟨true, true, ⟨[], true⟩, true, true, true⟩ = true
    ∧ BatchFormFiller_JAMBI.execute_filling_process ⟨⟨[], true⟩, none, false⟩ = true
    ∧ ReportFormFiller.fill_mandatory_fields
        ⟨true, ⟨[], true⟩, fun _ => true, fun _ => "X", fun _ => true⟩ = true := by
  decide

/-! ## Claim C10: the login gate in AutomatApp.run -/

/-- C10: a processor executes only in runs where login returned True; when
initialization succeeded and login returned False, the Login aborted
exception is raised and no processor is instantiated or executed. -/
theorem C10_login_gate (env : RunEnv) :
    ((AutomatApp.run env).processorExecuted = true → env.loginOk = true)
    ∧ (env.initOk = true → env.loginOk = false →
        (AutomatApp.run env).loginAborted = true
        ∧ (AutomatApp.run env).processorInstantiated = false
        ∧ (AutomatApp.run env).processorExecuted = false) := by
  obtain ⟨i, l, m⟩ := env
  cases i <;> cases l <;> cases m <;> simp [AutomatApp.run]

/-- C10 witness: the gate evaluated on the run whose login fails. -/
theorem C10_login_gate_witness :
    (AutomatApp.run ⟨true, false, true⟩).loginAborted = true
    ∧ (AutomatApp.run ⟨true, false, true⟩).processorInstantiated = false
    ∧ (AutomatApp.run ⟨true, false, true⟩).processorExecuted = false :=
  (C10_login_gate ⟨true, false, true⟩).2 rfl rfl

end AutoForm
